import Mathlib

/-!
Verification of the tchannel-go frame codec (`src/frame.go`) against its
specification.  The Go code is shallowly embedded: byte buffers become
`List Nat` (each element a byte value), machine integers become `Nat` with
explicit reduction modulo 2^16 / 2^32 / 2^8 where the Go types (`uint16`,
`uint32`, `byte`) truncate, fallible operations return `Except Unit`, and a
byte stream (`io.Reader`) becomes a list of chunks, each chunk being the
bytes one `Read` call delivers.
-/

namespace TChannel

/-- Constant `MaxFrameSize` from frame.go: total maximum size for a frame (`math.MaxUint16`). -/
def MaxFrameSize : Nat := 65535

/-- Constant `FrameHeaderSize` from frame.go: the size of the header element for a frame. -/
def FrameHeaderSize : Nat := 16

/-- Constant `MaxFramePayloadSize` from frame.go: maximum payload size for a single frame. -/
def MaxFramePayloadSize : Nat := MaxFrameSize - FrameHeaderSize

/-- Constant `initialPayloadCapacity` from frame.go: initial capacity for the frame buffer. -/
def initialPayloadCapacity : Nat := 1024

/-- Struct `FrameHeader` from frame.go.  Go field types: `size : uint16`,
`messageType : byte`, `reserved1 : byte`, `ID : uint32`, `reserved : [8]byte`.
Machine integers are modelled as `Nat`; the operations that store into the
fields apply the wrap of the corresponding Go type. -/
structure FrameHeader where
  size : Nat
  messageType : Nat
  reserved1 : Nat
  ID : Nat
  reserved : List Nat
deriving Repr, DecidableEq

/-- The Go zero value of `FrameHeader`: all fields zero, `reserved` eight zero bytes. -/
def FrameHeader.zero : FrameHeader :=
  { size := 0, messageType := 0, reserved1 := 0, ID := 0, reserved := List.replicate 8 0 }

instance : Inhabited FrameHeader := ⟨FrameHeader.zero⟩

/-- Method `FrameHeader.SetPayloadSize` from frame.go: `fh.size = size + FrameHeaderSize`
in `uint16` arithmetic (the argument is a `uint16`, the sum wraps modulo 2^16). -/
def FrameHeader.SetPayloadSize (fh : FrameHeader) (n : Nat) : FrameHeader :=
  { fh with size := (n % 65536 + FrameHeaderSize) % 65536 }

/-- Method `FrameHeader.PayloadSize` from frame.go: `fh.size - FrameHeaderSize` in
`uint16` arithmetic (wraps modulo 2^16 when `size < 16`).  Subtracting 16
modulo 2^16 is the same as adding 65520 modulo 2^16. -/
def FrameHeader.PayloadSize (fh : FrameHeader) : Nat :=
  (fh.size + 65520) % 65536

/-- Method `FrameHeader.FrameSize` from frame.go: returns `fh.size`. -/
def FrameHeader.FrameSize (fh : FrameHeader) : Nat :=
  fh.size

/-- Modelled from the spec: the `typed` write-buffer package
(`github.com/uber/tchannel-go/typed`) is not under src/; per spec sections 4.1
and 9 every multi-byte field uses big-endian/network byte order.  Big-endian
encoding of a `uint16` value. -/
def uint16BE (n : Nat) : List Nat :=
  [n / 256 % 256, n % 256]

/-- Modelled from the spec: big-endian encoding of a `uint32` value (the
`typed` write-buffer package is not under src/). -/
def uint32BE (n : Nat) : List Nat :=
  [n / 16777216 % 256, n / 65536 % 256, n / 256 % 256, n % 256]

/-- Method `FrameHeader.write` from frame.go, composed with the `typed.WriteBuffer`
byte sink (modelled from the spec: big-endian order): it emits, in order,
`size` (2 bytes), `messageType` (1 byte), `reserved1` (1 byte), `ID` (4 bytes)
and the eight in-memory `reserved` bytes — note the Go code writes
`fh.reserved1` and `fh.reserved[:]` verbatim, not constant zeros.  The Go
`reserved` field is a `[8]byte`; the model pads/truncates the list to 8. -/
def FrameHeader.write (fh : FrameHeader) : List Nat :=
  uint16BE fh.size ++ [fh.messageType % 256, fh.reserved1 % 256] ++ uint32BE fh.ID
    ++ (fh.reserved.take 8 ++ List.replicate (8 - fh.reserved.length) 0)

/-- The field assignments of `FrameHeader.read` from frame.go given the 16
wire bytes: `size` and `ID` are read big-endian (byte order modelled from the
spec, the `typed` package being outside src/), `messageType` and `reserved1`
are single bytes, and the final `r.ReadBytes(len(fh.reserved))` only skips the
8 reserved wire bytes — the in-memory `reserved` field is not assigned. -/
def FrameHeader.readFields (fh : FrameHeader) (b : List Nat) : FrameHeader :=
  { size := (b.getD 0 0 % 256) * 256 + b.getD 1 0 % 256
    messageType := b.getD 2 0 % 256
    reserved1 := b.getD 3 0 % 256
    ID := (b.getD 4 0 % 256) * 16777216 + (b.getD 5 0 % 256) * 65536
            + (b.getD 6 0 % 256) * 256 + b.getD 7 0 % 256
    reserved := fh.reserved }

/-- Method `FrameHeader.read` from frame.go: reads the six fields off a
`typed.ReadBuffer` and returns `r.Err()`, which is an end-of-buffer error
exactly when fewer than 16 bytes are available. -/
def FrameHeader.read (fh : FrameHeader) (b : List Nat) : Except Unit FrameHeader :=
  if b.length < 16 then .error () else .ok (fh.readFields b)

/-- Struct `Frame` from frame.go.  The Go struct holds `buffer`, plus `headerBuffer`
and `Payload` which are always the views `buffer[:16]` and `buffer[16:]`; the
views are derived here (`buffer.take 16`, `buffer.drop 16`) rather than
stored. -/
structure Frame where
  buffer : List Nat
  header : FrameHeader
deriving Repr, DecidableEq

/-- Go's `copy(dst, src)` semantics on byte slices: overwrite the prefix of
`dst` with `min |dst| |src|` bytes of `src`, keep the rest of `dst`, and keep
`dst`'s length. -/
def writeInto (dst src : List Nat) : List Nat :=
  src.take dst.length ++ dst.drop src.length

/-- Method `Frame.updateBufferSize` from frame.go: allocate a fresh zeroed buffer of
the given total capacity, `copy` the old buffer into it, and rebuild both
views (views being derived in the model, only the buffer changes). -/
def Frame.updateBufferSize (f : Frame) (payloadCapacity : Nat) : Frame :=
  { f with buffer :=
      f.buffer.take payloadCapacity ++ List.replicate (payloadCapacity - f.buffer.length) 0 }

/-- Function `NewFrame` from frame.go: a zero `Frame` grown to `initialPayloadCapacity`. -/
def NewFrame : Frame :=
  Frame.updateBufferSize { buffer := [], header := FrameHeader.zero } initialPayloadCapacity

/-- The capacity-doubling loop of `Frame.SizedPayload` from frame.go:
`for sz < needed { sz <<= 1 }`.  The Go loop never terminates when `sz = 0`
and `0 < needed`; the model returns `sz` there (that state is unreachable:
every frame is built by `NewFrame`, so capacity starts at 1024). -/
def growCap (sz needed : Nat) : Nat :=
  if sz < needed ∧ 0 < sz then growCap (2 * sz) needed else sz
termination_by needed - sz
decreasing_by omega

/-- Method `Frame.SizedPayload` from frame.go.  The Go source computes
`needed := int(FrameHeaderSize + f.Header.PayloadSize())`: `FrameHeaderSize`
is an untyped constant and `PayloadSize()` returns `uint16`, so the sum is
taken in `uint16` and wraps modulo 2^16 — for a header whose size field is
below 16 it wraps back to that size, and the doubling growth is skipped.
After the conditional growth, `f.Payload[:f.Header.PayloadSize()]` panics
with a slice-bounds error whenever `PayloadSize()` exceeds the payload view's
capacity (buffer capacity minus 16); the panic is modelled as `none`. -/
def Frame.SizedPayload (f : Frame) : Option (Frame × List Nat) :=
  let needed := (FrameHeaderSize + f.header.PayloadSize) % 65536
  let f' := if f.buffer.length < needed
            then f.updateBufferSize (growCap f.buffer.length needed)
            else f
  if 16 + f.header.PayloadSize ≤ f'.buffer.length then
    some (f', (f'.buffer.drop 16).take f.header.PayloadSize)
  else none

/-- Modelled from the spec: an `io.Reader` byte stream is not under src/.
Spec section 6 (Collaborator: Stream): ordered reliable reads that may be
arbitrarily short.  A stream is the list of chunks successive `Read` calls
deliver, after which end-of-stream is reported. -/
abbrev Stream' := List (List Nat)

/-- Modelled from the spec: `io.ReadFull` / `typed.ReadBuffer.FillFrom`
(outside src/) accumulate short reads until exactly `n` bytes are obtained,
and report an error when the stream ends first (spec section 4.2, ReadIn
step 1).  A chunk longer than the outstanding request is split, the surplus
staying in the stream. -/
def readFull (s : Stream') (n : Nat) : Option (List Nat × Stream') :=
  match s, n with
  | s, 0 => some ([], s)
  | [], _ + 1 => none
  | c :: rest, m + 1 =>
    if c.length ≤ m + 1 then
      (readFull rest (m + 1 - c.length)).map (fun p => (c ++ p.1, p.2))
    else
      some (c.take (m + 1), c.drop (m + 1) :: rest)

/-- Method `Frame.ReadIn` from frame.go: fill exactly 16 bytes into the header
view (an error when the view is shorter than 16 — a zero-value frame — or when
the stream ends first), decode the header from those bytes, and when the
decoded payload size is positive obtain the sized payload view and fill
exactly that many bytes into it, propagating any end-of-stream as an error.
`f.SizedPayload()` is evaluated before `io.ReadFull` runs, so when it panics
the whole call panics without touching the stream; the result is
`some (.error ())` for an error return, `some (.ok ...)` for success, and
`none` for a panic. -/
def Frame.ReadIn (f : Frame) (s : Stream') : Option (Except Unit (Frame × Stream')) :=
  if f.buffer.length < 16 then some (.error ()) else
  match readFull s FrameHeaderSize with
  | none => some (.error ())
  | some (hb, s1) =>
    match f.header.read hb with
    | .error _ => some (.error ())
    | .ok h =>
      let f1 : Frame := { buffer := writeInto f.buffer hb, header := h }
      if 0 < h.PayloadSize then
        match f1.SizedPayload with
        | none => none
        | some fp =>
          match readFull s1 h.PayloadSize with
          | none => some (.error ())
          | some (pb, s2) =>
            some (.ok ({ fp.1 with
                buffer := fp.1.buffer.take 16 ++ writeInto (fp.1.buffer.drop 16) pb }, s2))
      else some (.ok (f1, s1))

/-- Method `Frame.WriteOut` from frame.go: encode the header into the header view
(an error when the view is shorter than 16 bytes), then emit
`buffer[:FrameSize()]` in one write.  Slicing past the buffer (a Go panic
when `FrameSize()` exceeds the capacity) is modelled as an error. -/
def Frame.WriteOut (f : Frame) : Except Unit (Frame × List Nat) :=
  if f.buffer.length < 16 then .error () else
  let buf := f.header.write ++ f.buffer.drop 16
  if f.header.FrameSize ≤ buf.length then
    .ok ({ f with buffer := buf }, buf.take f.header.FrameSize)
  else .error ()

/-- Modelled from the spec: the `message` interface is not under src/.  Spec
section 6 (Collaborator: Message): a correlation id, a single-byte type tag,
and an encode that writes itself into a size-bounded sink and reports bytes
written or failure.  `encBytes` is the encoding the message produces and
`encOk` whether its internal encode succeeds; handed a sink of capacity `c`
the encode succeeds iff `encOk` and `encBytes.length ≤ c`. -/
structure Message where
  id : Nat
  mtype : Nat
  encBytes : List Nat
  encOk : Bool
deriving Repr, DecidableEq

/-- Method `Frame.write` from frame.go: wrap the payload view (current capacity,
never grown), let the message encode into it; on failure return the error
with the header fields untouched (the payload region may hold a partial
encoding); on success assign `ID`, `reserved1 = 0`, `messageType`, and
`SetPayloadSize(uint16(bytesWritten))`.  The error is the second component
(`none` = success, mirroring Go's `nil` error). -/
def Frame.write (f : Frame) (msg : Message) : Frame × Option Unit :=
  let cap := f.buffer.length - FrameHeaderSize
  let buf' := f.buffer.take 16 ++ writeInto (f.buffer.drop 16) msg.encBytes
  if msg.encOk ∧ msg.encBytes.length ≤ cap then
    ({ buffer := buf'
       header := { size := (msg.encBytes.length % 65536 + FrameHeaderSize) % 65536
                   messageType := msg.mtype
                   reserved1 := 0
                   ID := msg.id
                   reserved := f.header.reserved } }, none)
  else
    ({ f with buffer := buf' }, some ())

/-! Helper lemmas about the embedded definitions. -/

lemma length_NewFrame_buffer : NewFrame.buffer.length = 1024 := by
  show (([] : List Nat).take 1024 ++ List.replicate (1024 - ([] : List Nat).length) 0).length = 1024
  rw [List.length_append, List.length_take, List.length_replicate]
  norm_num

lemma NewFrame_header : NewFrame.header = FrameHeader.zero := rfl

lemma length_writeInto (dst src : List Nat) : (writeInto dst src).length = dst.length := by
  simp [writeInto]
  omega

lemma writeInto_of_le (dst src : List Nat) (h : src.length ≤ dst.length) :
    writeInto dst src = src ++ dst.drop src.length := by
  simp [writeInto, List.take_of_length_le h]

lemma FrameHeader.length_write (fh : FrameHeader) : fh.write.length = 16 := by
  simp [FrameHeader.write, uint16BE, uint32BE]
  omega

lemma growCap_eq (sz needed : Nat) :
    growCap sz needed = if sz < needed ∧ 0 < sz then growCap (2 * sz) needed else sz := by
  rw [growCap]

lemma growCap_spec_aux :
    ∀ fuel sz needed : Nat, needed - sz ≤ fuel → 0 < sz → sz < needed →
      needed ≤ growCap sz needed ∧
        ∃ k, growCap sz needed = 2 ^ k * sz ∧ ∀ j < k, 2 ^ j * sz < needed := by
  intro fuel
  induction fuel with
  | zero => intro sz needed h h0 hlt; omega
  | succ n ih =>
    intro sz needed h h0 hlt
    rw [growCap_eq, if_pos ⟨hlt, h0⟩]
    by_cases h2 : 2 * sz < needed
    · obtain ⟨hle, k, hk, hmin⟩ := ih (2 * sz) needed (by omega) (by omega) h2
      refine ⟨hle, k + 1, by rw [hk]; ring, ?_⟩
      intro j hj
      cases j with
      | zero => simpa using hlt
      | succ j' =>
        have hj' := hmin j' (by omega)
        calc 2 ^ (j' + 1) * sz = 2 ^ j' * (2 * sz) := by ring
        _ < needed := hj'
    · rw [growCap_eq, if_neg (by omega)]
      refine ⟨by omega, 1, by ring, ?_⟩
      intro j hj
      interval_cases j
      simpa using hlt

lemma growCap_spec (sz needed : Nat) (h0 : 0 < sz) :
    needed ≤ growCap sz needed ∧
      ∃ k, growCap sz needed = 2 ^ k * sz ∧ ∀ j < k, 2 ^ j * sz < needed := by
  by_cases hlt : sz < needed
  · exact growCap_spec_aux (needed - sz) sz needed le_rfl h0 hlt
  · rw [growCap_eq, if_neg (by omega)]
    refine ⟨by omega, 0, ?_, ?_⟩
    · ring
    · intro j hj
      omega

lemma readFull_some (s : Stream') :
    ∀ n, n ≤ s.flatten.length →
      ∃ s', readFull s n = some (s.flatten.take n, s') ∧ s'.flatten = s.flatten.drop n := by
  induction s with
  | nil =>
    intro n h
    simp only [List.flatten_nil, List.length_nil, Nat.le_zero] at h
    subst h
    exact ⟨[], by simp [readFull], by simp⟩
  | cons c rest ih =>
    intro n h
    cases n with
    | zero => exact ⟨c :: rest, by simp [readFull], by simp⟩
    | succ m =>
      simp only [List.flatten_cons, List.length_append] at h
      by_cases hc : c.length ≤ m + 1
      · obtain ⟨s', hs', hf⟩ := ih (m + 1 - c.length) (by omega)
        refine ⟨s', ?_, ?_⟩
        · simp only [readFull, if_pos hc, hs', Option.map_some']
          congr 2
          simp [List.flatten_cons, List.take_append_eq_append_take, List.take_of_length_le hc]
        · rw [hf]
          simp [List.flatten_cons, List.drop_append_eq_append_drop, List.drop_eq_nil_of_le hc]
      · refine ⟨c.drop (m + 1) :: rest, ?_, ?_⟩
        · simp only [readFull, if_neg hc]
          congr 2
          have h0 : m + 1 - c.length = 0 := by omega
          simp [List.flatten_cons, List.take_append_eq_append_take, h0]
        · have h0 : m + 1 - c.length = 0 := by omega
          simp [List.flatten_cons, List.drop_append_eq_append_drop, h0]

lemma readFull_none (s : Stream') :
    ∀ n, s.flatten.length < n → readFull s n = none := by
  induction s with
  | nil =>
    intro n h
    cases n with
    | zero => simp at h
    | succ m => simp [readFull]
  | cons c rest ih =>
    intro n h
    cases n with
    | zero => simp at h
    | succ m =>
      simp only [List.flatten_cons, List.length_append] at h
      have hc : c.length ≤ m + 1 := by omega
      simp only [readFull, if_pos hc, ih (m + 1 - c.length) (by omega), Option.map_none']

lemma FrameHeader.readFields_write (g fh : FrameHeader) (hs : fh.size < 65536)
    (hm : fh.messageType < 256) (hr : fh.reserved1 < 256) (hi : fh.ID < 4294967296) :
    g.readFields fh.write = { fh with reserved := g.reserved } := by
  obtain ⟨s, mt, r1, i, res⟩ := fh
  simp only [FrameHeader.readFields, FrameHeader.write, uint16BE, uint32BE,
    List.cons_append, List.nil_append, List.getD_cons_zero, List.getD_cons_succ] at *
  simp only [FrameHeader.mk.injEq]
  refine ⟨?_, ?_, ?_, ?_, trivial⟩ <;> omega

lemma SizedPayload_spec (f : Frame) (h16 : 16 ≤ f.buffer.length)
    (hps : f.header.PayloadSize ≤ 65519) :
    ∃ f' v, f.SizedPayload = some (f', v) ∧
      f'.header = f.header ∧
      f'.buffer.take f.buffer.length = f.buffer ∧
      16 + f.header.PayloadSize ≤ f'.buffer.length ∧
      f'.buffer.length = (if f.buffer.length < 16 + f.header.PayloadSize
         then growCap f.buffer.length (16 + f.header.PayloadSize)
         else f.buffer.length) ∧
      v = (f'.buffer.drop 16).take f.header.PayloadSize := by
  have hneed : (FrameHeaderSize + f.header.PayloadSize) % 65536
      = 16 + f.header.PayloadSize := by
    simp only [FrameHeaderSize]
    omega
  by_cases hg : f.buffer.length < 16 + f.header.PayloadSize
  · obtain ⟨hge, k, hk, -⟩ := growCap_spec f.buffer.length (16 + f.header.PayloadSize)
      (by omega)
    have hcap : f.buffer.length ≤ growCap f.buffer.length (16 + f.header.PayloadSize) := by
      omega
    have hbuf : (f.updateBufferSize (growCap f.buffer.length
          (16 + f.header.PayloadSize))).buffer
        = f.buffer ++ List.replicate
            (growCap f.buffer.length (16 + f.header.PayloadSize) - f.buffer.length) 0 := by
      simp only [Frame.updateBufferSize]
      rw [List.take_of_length_le hcap]
    have hblen : (f.updateBufferSize (growCap f.buffer.length
          (16 + f.header.PayloadSize))).buffer.length
        = growCap f.buffer.length (16 + f.header.PayloadSize) := by
      rw [hbuf, List.length_append, List.length_replicate]
      omega
    have hval : f.SizedPayload
        = some (f.updateBufferSize (growCap f.buffer.length (16 + f.header.PayloadSize)),
            ((f.updateBufferSize (growCap f.buffer.length
              (16 + f.header.PayloadSize))).buffer.drop 16).take f.header.PayloadSize) := by
      simp only [Frame.SizedPayload, hneed, if_pos hg]
      rw [if_pos (by rw [hblen]; omega)]
    refine ⟨_, _, hval, rfl, ?_, ?_, ?_, rfl⟩
    · rw [hbuf, List.take_append_eq_append_take, List.take_of_length_le le_rfl,
        Nat.sub_self, List.take_zero, List.append_nil]
    · rw [hblen]
      omega
    · rw [hblen, if_pos hg]
  · have hval : f.SizedPayload = some (f, (f.buffer.drop 16).take f.header.PayloadSize) := by
      simp only [Frame.SizedPayload, hneed, if_neg hg]
      rw [if_pos (by omega)]
    exact ⟨f, _, hval, rfl, List.take_of_length_le le_rfl, by omega, by rw [if_neg hg], rfl⟩

lemma SizedPayload_none_of_wrap (f : Frame) (hwrap : 65520 ≤ f.header.PayloadSize)
    (h16 : 16 ≤ f.buffer.length) (hsmall : f.buffer.length < 16 + f.header.PayloadSize) :
    f.SizedPayload = none := by
  have hps_lt : f.header.PayloadSize < 65536 := by
    simp only [FrameHeader.PayloadSize]
    omega
  have hneed : (FrameHeaderSize + f.header.PayloadSize) % 65536
      = 16 + f.header.PayloadSize - 65536 := by
    simp only [FrameHeaderSize]
    omega
  have hskip : ¬ f.buffer.length < (FrameHeaderSize + f.header.PayloadSize) % 65536 := by
    rw [hneed]
    omega
  simp only [Frame.SizedPayload, if_neg hskip]
  rw [if_neg (by omega)]

lemma not_NewFrame_short : ¬ NewFrame.buffer.length < 16 := by
  rw [length_NewFrame_buffer]
  norm_num

lemma ReadIn_NewFrame_err_header (s : Stream') (h16 : s.flatten.length < 16) :
    NewFrame.ReadIn s = some (.error ()) := by
  rw [Frame.ReadIn, if_neg not_NewFrame_short, show FrameHeaderSize = 16 from rfl,
    readFull_none s 16 h16]

lemma ReadIn_NewFrame_err_payload (s : Stream')
    (h16 : 16 ≤ s.flatten.length)
    (hps65 : (FrameHeader.readFields FrameHeader.zero (s.flatten.take 16)).PayloadSize ≤ 65519)
    (hlen : s.flatten.length
      < 16 + (FrameHeader.readFields FrameHeader.zero (s.flatten.take 16)).PayloadSize) :
    NewFrame.ReadIn s = some (.error ()) := by
  obtain ⟨s1, hs1, hf1⟩ := readFull_some s 16 h16
  have hhb : (s.flatten.take 16).length = 16 := by
    rw [List.length_take]
    omega
  have hread : NewFrame.header.read (s.flatten.take 16)
      = .ok (NewFrame.header.readFields (s.flatten.take 16)) := by
    rw [FrameHeader.read, if_neg (by omega)]
  have hps65' : (NewFrame.header.readFields (s.flatten.take 16)).PayloadSize ≤ 65519 := by
    rw [NewFrame_header]
    exact hps65
  have hps : 0 < (NewFrame.header.readFields (s.flatten.take 16)).PayloadSize := by
    rw [NewFrame_header]
    omega
  have hbuf1len : (writeInto NewFrame.buffer (s.flatten.take 16)).length = 1024 := by
    rw [length_writeInto, length_NewFrame_buffer]
  obtain ⟨FP, v, hsp, -, -, -, -, -⟩ := SizedPayload_spec
    { buffer := writeInto NewFrame.buffer (s.flatten.take 16)
      header := NewFrame.header.readFields (s.flatten.take 16) }
    (by dsimp only; omega) (by dsimp only; exact hps65')
  have hrest : s1.flatten.length
      < (NewFrame.header.readFields (s.flatten.take 16)).PayloadSize := by
    rw [hf1, List.length_drop, NewFrame_header]
    omega
  rw [Frame.ReadIn, if_neg not_NewFrame_short]
  simp only [show FrameHeaderSize = 16 from rfl, hs1, hread, if_pos hps, hsp,
    readFull_none s1 _ hrest]

lemma ReadIn_NewFrame_panic (s : Stream')
    (h16 : 16 ≤ s.flatten.length)
    (hwrap : 65520
      ≤ (FrameHeader.readFields FrameHeader.zero (s.flatten.take 16)).PayloadSize) :
    NewFrame.ReadIn s = none := by
  obtain ⟨s1, hs1, hf1⟩ := readFull_some s 16 h16
  have hhb : (s.flatten.take 16).length = 16 := by
    rw [List.length_take]
    omega
  have hread : NewFrame.header.read (s.flatten.take 16)
      = .ok (NewFrame.header.readFields (s.flatten.take 16)) := by
    rw [FrameHeader.read, if_neg (by omega)]
  have hwrap' : 65520 ≤ (NewFrame.header.readFields (s.flatten.take 16)).PayloadSize := by
    rw [NewFrame_header]
    exact hwrap
  have hps : 0 < (NewFrame.header.readFields (s.flatten.take 16)).PayloadSize := by
    omega
  have hbuf1len : (writeInto NewFrame.buffer (s.flatten.take 16)).length = 1024 := by
    rw [length_writeInto, length_NewFrame_buffer]
  have hnone : (Frame.mk (writeInto NewFrame.buffer (s.flatten.take 16))
        (NewFrame.header.readFields (s.flatten.take 16))).SizedPayload = none :=
    SizedPayload_none_of_wrap _ (by dsimp only; exact hwrap') (by dsimp only; omega)
      (by dsimp only; omega)
  rw [Frame.ReadIn, if_neg not_NewFrame_short]
  simp only [show FrameHeaderSize = 16 from rfl, hs1, hread, if_pos hps, hnone]

lemma ReadIn_NewFrame_ok (s : Stream')
    (hps65 : (FrameHeader.readFields FrameHeader.zero (s.flatten.take 16)).PayloadSize ≤ 65519)
    (hlen : 16 + (FrameHeader.readFields FrameHeader.zero (s.flatten.take 16)).PayloadSize
      ≤ s.flatten.length) :
    ∃ g s', NewFrame.ReadIn s = some (.ok (g, s')) ∧
      g.header = FrameHeader.readFields FrameHeader.zero (s.flatten.take 16) ∧
      g.buffer.take 16 = s.flatten.take 16 ∧
      (g.buffer.drop 16).take g.header.PayloadSize
        = (s.flatten.drop 16).take g.header.PayloadSize ∧
      s'.flatten = s.flatten.drop (16 + g.header.PayloadSize) ∧
      g.buffer.length = (if 1024 < 16 + g.header.PayloadSize
         then growCap 1024 (16 + g.header.PayloadSize) else 1024) ∧
      16 + g.header.PayloadSize ≤ g.buffer.length := by
  have h16 : 16 ≤ s.flatten.length := by omega
  obtain ⟨s1, hs1, hflat1⟩ := readFull_some s 16 h16
  have hhb : (s.flatten.take 16).length = 16 := by
    rw [List.length_take]
    omega
  have hread : NewFrame.header.read (s.flatten.take 16)
      = .ok (NewFrame.header.readFields (s.flatten.take 16)) := by
    rw [FrameHeader.read, if_neg (by omega)]
  have hzero : NewFrame.header.readFields (s.flatten.take 16)
      = FrameHeader.readFields FrameHeader.zero (s.flatten.take 16) := by
    rw [NewFrame_header]
  have hlen' : 16 + (NewFrame.header.readFields (s.flatten.take 16)).PayloadSize
      ≤ s.flatten.length := by
    rw [hzero]
    exact hlen
  have hps65' : (NewFrame.header.readFields (s.flatten.take 16)).PayloadSize ≤ 65519 := by
    rw [hzero]
    exact hps65
  have hbuf1 : writeInto NewFrame.buffer (s.flatten.take 16)
      = s.flatten.take 16 ++ NewFrame.buffer.drop 16 := by
    rw [writeInto_of_le _ _ (by rw [hhb, length_NewFrame_buffer]; norm_num), hhb]
  have hbuf1len : (writeInto NewFrame.buffer (s.flatten.take 16)).length = 1024 := by
    rw [length_writeInto, length_NewFrame_buffer]
  have htake16 : (writeInto NewFrame.buffer (s.flatten.take 16)).take 16
      = s.flatten.take 16 := by
    rw [hbuf1, List.take_append_eq_append_take, hhb, Nat.sub_self, List.take_zero,
      List.append_nil, List.take_of_length_le (le_of_eq hhb)]
  rw [Frame.ReadIn, if_neg not_NewFrame_short]
  by_cases hps : 0 < (NewFrame.header.readFields (s.flatten.take 16)).PayloadSize
  · obtain ⟨s2, hs2, hflat2⟩ := readFull_some s1
      ((NewFrame.header.readFields (s.flatten.take 16)).PayloadSize)
      (by rw [hflat1, List.length_drop]; omega)
    obtain ⟨FP, v, hsp, hsphead, hsptake, hsple, hsplen, -⟩ := SizedPayload_spec
      { buffer := writeInto NewFrame.buffer (s.flatten.take 16)
        header := NewFrame.header.readFields (s.flatten.take 16) }
      (by dsimp only; omega) (by dsimp only; exact hps65')
    dsimp only at hsp hsphead hsptake hsple hsplen
    simp only [show FrameHeaderSize = 16 from rfl, hs1, hread, if_pos hps, hsp, hs2]
    set H := NewFrame.header.readFields (s.flatten.take 16) with hH
    set W := writeInto NewFrame.buffer (s.flatten.take 16) with hW
    rw [hbuf1len] at hsptake hsplen
    have hsple' : 16 + H.PayloadSize ≤ FP.buffer.length := hsple
    have hsptake16 : FP.buffer.take 16 = s.flatten.take 16 := by
      have h1 : FP.buffer.take 16 = (FP.buffer.take 1024).take 16 := by
        rw [List.take_take]
        norm_num
      rw [h1, hsptake]
      exact htake16
    have hpblen : (s1.flatten.take H.PayloadSize).length = H.PayloadSize := by
      rw [List.length_take, hflat1, List.length_drop]
      omega
    have hAlen : (FP.buffer.take 16).length = 16 := by
      rw [List.length_take]
      omega
    have hwi : writeInto (FP.buffer.drop 16) (s1.flatten.take H.PayloadSize)
        = s1.flatten.take H.PayloadSize ++ (FP.buffer.drop 16).drop H.PayloadSize := by
      rw [writeInto_of_le _ _ (by rw [hpblen, List.length_drop]; omega), hpblen]
    refine ⟨_, s2, rfl, ?_, ?_, ?_, ?_, ?_, ?_⟩
    all_goals dsimp only
    · rw [hsphead, hH, NewFrame_header]
    · rw [List.take_append_eq_append_take, hAlen, Nat.sub_self, List.take_zero,
        List.append_nil, List.take_of_length_le (le_of_eq hAlen), hsptake16]
    · rw [hsphead, List.drop_append_eq_append_drop, hAlen, Nat.sub_self, List.drop_zero,
        List.drop_eq_nil_of_le (le_of_eq hAlen), List.nil_append, hwi,
        List.take_append_eq_append_take, hpblen, Nat.sub_self, List.take_zero,
        List.append_nil, List.take_of_length_le (le_of_eq hpblen), hflat1]
    · rw [hsphead, hflat2, hflat1, List.drop_drop, Nat.add_comm]
    · rw [hsphead, List.length_append, hAlen, length_writeInto, List.length_drop, ← hsplen]
      omega
    · rw [hsphead, List.length_append, hAlen, length_writeInto, List.length_drop]
      omega
  · obtain ⟨FP0, v0, hsp0, -, -, -, -, -⟩ := SizedPayload_spec
      { buffer := writeInto NewFrame.buffer (s.flatten.take 16)
        header := NewFrame.header.readFields (s.flatten.take 16) }
      (by dsimp only; omega) (by dsimp only; omega)
    simp only [show FrameHeaderSize = 16 from rfl, hs1, hread, if_neg hps, hsp0]
    have hps0 : (NewFrame.header.readFields (s.flatten.take 16)).PayloadSize = 0 := by
      omega
    refine ⟨_, s1, rfl, ?_, ?_, ?_, ?_, ?_, ?_⟩
    all_goals dsimp only
    · rw [NewFrame_header]
    · exact htake16
    · rw [hps0]
      simp
    · rw [hps0]
      simpa using hflat1
    · rw [hps0, hbuf1len]
      norm_num
    · rw [hps0, hbuf1len]
      norm_num

/-! Claim theorems. -/

/-- C7: for every L in [0, 65519], after `SetPayloadSize L` the header stores
`size = L + 16`, `PayloadSize()` returns `L`, and `FrameSize()` returns `L + 16`. -/
theorem c7_setPayloadSize_roundtrip (fh : FrameHeader) (L : Nat) (hL : L ≤ 65519) :
    (fh.SetPayloadSize L).size = L + 16 ∧
    (fh.SetPayloadSize L).PayloadSize = L ∧
    (fh.SetPayloadSize L).FrameSize = L + 16 := by
  simp only [FrameHeader.SetPayloadSize, FrameHeader.PayloadSize, FrameHeader.FrameSize,
    FrameHeaderSize]
  omega

/-- Witness for C7 at L = 100. -/
theorem c7_setPayloadSize_roundtrip_witness :
    (FrameHeader.zero.SetPayloadSize 100).size = 100 + 16 ∧
    (FrameHeader.zero.SetPayloadSize 100).PayloadSize = 100 ∧
    (FrameHeader.zero.SetPayloadSize 100).FrameSize = 100 + 16 :=
  c7_setPayloadSize_roundtrip FrameHeader.zero 100 (by norm_num)

/-- C4 counterexample: declaring payload length 65520 (> 65519) does not fail —
`SetPayloadSize` is total and has no error path — it silently wraps the stored
size modulo 2^16, yielding `FrameSize() = 0` while `PayloadSize()` still reads
back 65520. -/
theorem c4_counterexample :
    (FrameHeader.zero.SetPayloadSize 65520).FrameSize = 0 ∧
    (FrameHeader.zero.SetPayloadSize 65520).PayloadSize = 65520 := by
  constructor <;> rfl

/-- C4 amended: declaring L = 65519 round-trips (`PayloadSize = 65519`,
`FrameSize = 65535`); but `SetPayloadSize` cannot fail: for every L ≤ 65535 it
silently stores `(L + 16) mod 2^16`, so `PayloadSize()` still reads back `L`
while for L > 65519 the stored `FrameSize()` wraps below 16; the declared frame
size never exceeds 65535 only because the size field is 16 bits wide. -/
theorem c4_amended_no_failfast (fh : FrameHeader) (L : Nat) (hL : L ≤ 65535) :
    (fh.SetPayloadSize L).PayloadSize = L ∧
    (fh.SetPayloadSize L).FrameSize = (L + 16) % 65536 ∧
    (fh.SetPayloadSize L).FrameSize ≤ 65535 ∧
    (L ≤ 65519 → (fh.SetPayloadSize L).FrameSize = L + 16) ∧
    (65519 < L → (fh.SetPayloadSize L).FrameSize < 16) := by
  simp only [FrameHeader.SetPayloadSize, FrameHeader.PayloadSize, FrameHeader.FrameSize,
    FrameHeaderSize]
  refine ⟨by omega, by omega, by omega, ?_, ?_⟩ <;> intro h <;> omega

/-- Witness for the amended C4 at L = 65520. -/
theorem c4_amended_no_failfast_witness :
    (FrameHeader.zero.SetPayloadSize 65520).PayloadSize = 65520 ∧
    (FrameHeader.zero.SetPayloadSize 65520).FrameSize = (65520 + 16) % 65536 ∧
    (FrameHeader.zero.SetPayloadSize 65520).FrameSize ≤ 65535 ∧
    (65520 ≤ 65519 → (FrameHeader.zero.SetPayloadSize 65520).FrameSize = 65520 + 16) ∧
    (65519 < 65520 → (FrameHeader.zero.SetPayloadSize 65520).FrameSize < 16) :=
  c4_amended_no_failfast FrameHeader.zero 65520 (by norm_num)

/-- C2: for every messageType < 256, ID < 2^32 and payload length L ≤ 65519,
writing a header with `size = L + 16` produces 16 bytes, and reading a header
back from those bytes yields the same messageType, the same ID, and
`PayloadSize() = L`. -/
theorem c2_header_encode_decode (m i L r1 : Nat) (res : List Nat) (h : FrameHeader)
    (hdef : h = { size := L + 16, messageType := m, reserved1 := r1, ID := i, reserved := res })
    (hm : m < 256) (hi : i < 4294967296) (hL : L ≤ 65519) :
    h.write.length = 16 ∧
    (FrameHeader.zero.readFields h.write).messageType = m ∧
    (FrameHeader.zero.readFields h.write).ID = i ∧
    (FrameHeader.zero.readFields h.write).PayloadSize = L := by
  subst hdef
  refine ⟨FrameHeader.length_write _, ?_, ?_, ?_⟩ <;>
    simp only [FrameHeader.write, FrameHeader.readFields, FrameHeader.PayloadSize, uint16BE,
      uint32BE, List.cons_append, List.nil_append, List.getD_cons_zero, List.getD_cons_succ] <;>
    omega

/-- Witness for C2 at m = 7, i = 42, L = 100. -/
theorem c2_header_encode_decode_witness :
    ({ size := 100 + 16, messageType := 7, reserved1 := 0, ID := 42,
       reserved := List.replicate 8 0 } : FrameHeader).write.length = 16 ∧
    (FrameHeader.zero.readFields
      ({ size := 100 + 16, messageType := 7, reserved1 := 0, ID := 42,
         reserved := List.replicate 8 0 } : FrameHeader).write).messageType = 7 ∧
    (FrameHeader.zero.readFields
      ({ size := 100 + 16, messageType := 7, reserved1 := 0, ID := 42,
         reserved := List.replicate 8 0 } : FrameHeader).write).ID = 42 ∧
    (FrameHeader.zero.readFields
      ({ size := 100 + 16, messageType := 7, reserved1 := 0, ID := 42,
         reserved := List.replicate 8 0 } : FrameHeader).write).PayloadSize = 100 :=
  c2_header_encode_decode 7 42 100 0 (List.replicate 8 0) _ rfl (by norm_num) (by norm_num)
    (by norm_num)

/-- C3 counterexample: a header populated by the header read operation from
wire bytes whose byte 3 (reserved1) is 5 serializes byte 3 as 5, not 0 — the
write operation emits the in-memory `reserved1` verbatim. -/
theorem c3_counterexample :
    ((FrameHeader.zero.readFields
        [0, 16, 0, 5, 0, 0, 0, 0, 1, 2, 3, 4, 5, 6, 7, 8]).write).getD 3 0 ≠ 0 := by
  decide

/-- C3 amended: the header write operation serializes the in-memory `reserved1`
(byte 3) and `reserved` (bytes 8–15) fields verbatim.  Bytes 8–15 are zero
whenever the in-memory `reserved` field is zero — the read operation never
assigns it, so headers populated by read keep the zeros they were constructed
with — but byte 3 equals the in-memory `reserved1`, which the read operation
sets from the wire, so a header read from wire bytes with nonzero byte 3 is
written back with that byte nonzero. -/
theorem c3_amended_reserved_verbatim (fh : FrameHeader) (b : List Nat) :
    fh.write.getD 3 0 = fh.reserved1 % 256 ∧
    (fh.readFields b).reserved = fh.reserved ∧
    (fh.readFields b).reserved1 = b.getD 3 0 % 256 ∧
    (fh.reserved = List.replicate 8 0 → fh.write.drop 8 = List.replicate 8 0) := by
  refine ⟨?_, rfl, rfl, ?_⟩
  · simp [FrameHeader.write, uint16BE, uint32BE]
  · intro hres
    simp [FrameHeader.write, uint16BE, uint32BE, hres]

/-- Witness for the amended C3: a header read from wire bytes with nonzero
reserved bytes 8–15 still writes bytes 8–15 as zero (its in-memory `reserved`
is untouched by read), discharging the hypothesis of the final conjunct. -/
theorem c3_amended_reserved_verbatim_witness :
    (FrameHeader.zero.readFields
        [0, 16, 0, 5, 0, 0, 0, 0, 1, 2, 3, 4, 5, 6, 7, 8]).write.drop 8
      = List.replicate 8 0 :=
  (c3_amended_reserved_verbatim
      (FrameHeader.zero.readFields [0, 16, 0, 5, 0, 0, 0, 0, 1, 2, 3, 4, 5, 6, 7, 8])
      []).2.2.2 (by decide)

/-- C6 counterexample: a frame whose header declares `PayloadSize = 65520`
(size field 0) over a 16-byte buffer needs a payload far larger than its
capacity, yet `SizedPayload` performs no growth at all: the Go computation of
`needed` wraps in `uint16` to `0 ≤ capacity`, the doubling loop is skipped,
and slicing the payload view panics (`none`) — the frame is never grown. -/
theorem c6_counterexample :
    (Frame.mk (List.replicate 16 3) FrameHeader.zero).buffer.length
      < 16 + (Frame.mk (List.replicate 16 3) FrameHeader.zero).header.PayloadSize ∧
    (Frame.mk (List.replicate 16 3) FrameHeader.zero).SizedPayload = none := by
  constructor <;> decide

/-- C6 amended: whenever a payload with `PayloadSize ≤ 65519` (every header
produced by a successful encode is of this form) is larger than the current
buffer capacity, `SizedPayload` grows the buffer to the minimal capacity
reached by repeatedly doubling the current capacity until header + payload
fit, copies all previously valid bytes into the new buffer's prefix
(zero-filling the rest), and leaves the 16 previously written header bytes
unchanged; for `PayloadSize ≥ 65520` the `uint16` computation of `needed`
wraps below 16, growth is skipped, and slicing the payload view panics. -/
theorem c6_amended_growth (f : Frame) (h16 : 16 ≤ f.buffer.length)
    (hps : f.header.PayloadSize ≤ 65519)
    (hg : f.buffer.length < 16 + f.header.PayloadSize) :
    ∃ f' v, f.SizedPayload = some (f', v) ∧
      16 + f.header.PayloadSize ≤ f'.buffer.length ∧
      (∃ k, f'.buffer.length = 2 ^ k * f.buffer.length ∧
        ∀ j < k, 2 ^ j * f.buffer.length < 16 + f.header.PayloadSize) ∧
      f'.buffer = f.buffer ++ List.replicate (f'.buffer.length - f.buffer.length) 0 ∧
      f'.buffer.take 16 = f.buffer.take 16 := by
  obtain ⟨hge, k, hk, hmin⟩ := growCap_spec f.buffer.length (16 + f.header.PayloadSize)
    (by omega)
  have hcap : f.buffer.length ≤ growCap f.buffer.length (16 + f.header.PayloadSize) := by
    omega
  have hneed : (FrameHeaderSize + f.header.PayloadSize) % 65536
      = 16 + f.header.PayloadSize := by
    simp only [FrameHeaderSize]
    omega
  have hbuf : (f.updateBufferSize (growCap f.buffer.length
        (16 + f.header.PayloadSize))).buffer
      = f.buffer ++ List.replicate
          (growCap f.buffer.length (16 + f.header.PayloadSize) - f.buffer.length) 0 := by
    simp only [Frame.updateBufferSize]
    rw [List.take_of_length_le hcap]
  have hblen : (f.updateBufferSize (growCap f.buffer.length
        (16 + f.header.PayloadSize))).buffer.length
      = growCap f.buffer.length (16 + f.header.PayloadSize) := by
    rw [hbuf, List.length_append, List.length_replicate]
    omega
  have hval : f.SizedPayload
      = some (f.updateBufferSize (growCap f.buffer.length (16 + f.header.PayloadSize)),
          ((f.updateBufferSize (growCap f.buffer.length
            (16 + f.header.PayloadSize))).buffer.drop 16).take f.header.PayloadSize) := by
    simp only [Frame.SizedPayload, hneed, if_pos hg]
    rw [if_pos (by rw [hblen]; omega)]
  refine ⟨_, _, hval, ?_, ⟨k, ?_, hmin⟩, ?_, ?_⟩
  · rw [hblen]
    omega
  · rw [hblen, hk]
  · rw [hblen, hbuf]
  · rw [hbuf, List.take_append_eq_append_take, show 16 - f.buffer.length = 0 from by omega,
      List.take_zero, List.append_nil]

/-- Witness for the amended C6: a 16-byte buffer with a declared payload of 5
bytes grows to 32 bytes while keeping the 16 header bytes unchanged. -/
theorem c6_amended_growth_witness :
    ∃ f' v,
      (Frame.mk (List.replicate 16 3) (FrameHeader.zero.SetPayloadSize 5)).SizedPayload
        = some (f', v) ∧
      16 + (Frame.mk (List.replicate 16 3)
          (FrameHeader.zero.SetPayloadSize 5)).header.PayloadSize ≤ f'.buffer.length ∧
      (∃ k, f'.buffer.length = 2 ^ k * (Frame.mk (List.replicate 16 3)
            (FrameHeader.zero.SetPayloadSize 5)).buffer.length ∧
        ∀ j < k, 2 ^ j * (Frame.mk (List.replicate 16 3)
              (FrameHeader.zero.SetPayloadSize 5)).buffer.length
            < 16 + (Frame.mk (List.replicate 16 3)
                (FrameHeader.zero.SetPayloadSize 5)).header.PayloadSize) ∧
      f'.buffer = (Frame.mk (List.replicate 16 3)
            (FrameHeader.zero.SetPayloadSize 5)).buffer
          ++ List.replicate (f'.buffer.length - (Frame.mk (List.replicate 16 3)
              (FrameHeader.zero.SetPayloadSize 5)).buffer.length) 0 ∧
      f'.buffer.take 16 = (Frame.mk (List.replicate 16 3)
          (FrameHeader.zero.SetPayloadSize 5)).buffer.take 16 :=
  c6_amended_growth (Frame.mk (List.replicate 16 3) (FrameHeader.zero.SetPayloadSize 5))
    (by decide) (by decide) (by decide)

/-- C10: the method `Frame.write` never grows the buffer, fails when the encoding does
not fit the current payload capacity or the message's own encode fails, and on
every failure returns with every header field unchanged — header fields are
assigned only after a successful encode. -/
theorem c10_write_error_header_unchanged (f : Frame) (msg : Message) :
    (Frame.write f msg).1.buffer.length = f.buffer.length ∧
    (msg.encOk = true → f.buffer.length - 16 < msg.encBytes.length →
      (Frame.write f msg).2 = some ()) ∧
    (msg.encOk = false → (Frame.write f msg).2 = some ()) ∧
    ((Frame.write f msg).2 = some () → (Frame.write f msg).1.header = f.header) := by
  have hblen : (f.buffer.take 16 ++ writeInto (f.buffer.drop 16) msg.encBytes).length
      = f.buffer.length := by
    rw [List.length_append, List.length_take, length_writeInto, List.length_drop]
    omega
  by_cases hc : msg.encOk = true ∧ msg.encBytes.length ≤ f.buffer.length - FrameHeaderSize
  · have hw : Frame.write f msg
        = ({ buffer := f.buffer.take 16 ++ writeInto (f.buffer.drop 16) msg.encBytes
             header := { size := (msg.encBytes.length % 65536 + FrameHeaderSize) % 65536
                         messageType := msg.mtype
                         reserved1 := 0
                         ID := msg.id
                         reserved := f.header.reserved } }, none) := by
      rw [Frame.write, if_pos hc]
    rw [hw]
    refine ⟨hblen, ?_, ?_, ?_⟩
    · intro _ hlt
      exact absurd hc.2 (by simp only [FrameHeaderSize]; omega)
    · intro hfalse
      rw [hfalse] at hc
      exact absurd hc.1 (by simp)
    · intro habs
      exact absurd habs (by simp)
  · have hw : Frame.write f msg
        = ({ f with buffer := f.buffer.take 16 ++ writeInto (f.buffer.drop 16) msg.encBytes },
           some ()) := by
      rw [Frame.write, if_neg hc]
    rw [hw]
    exact ⟨hblen, fun _ _ => rfl, fun _ => rfl, fun _ => rfl⟩

/-- Witness for C10: a message whose own encode fails makes `Frame.write`
return an error with the header unchanged. -/
theorem c10_write_error_header_unchanged_witness :
    (Frame.write NewFrame ⟨9, 9, [1, 2, 3], false⟩).2 = some () ∧
    (Frame.write NewFrame ⟨9, 9, [1, 2, 3], false⟩).1.header = NewFrame.header :=
  ⟨(c10_write_error_header_unchanged NewFrame ⟨9, 9, [1, 2, 3], false⟩).2.2.1 rfl,
    (c10_write_error_header_unchanged NewFrame ⟨9, 9, [1, 2, 3], false⟩).2.2.2
      ((c10_write_error_header_unchanged NewFrame ⟨9, 9, [1, 2, 3], false⟩).2.2.1 rfl)⟩

/-- C5 counterexample: a stream delivering a complete 16-byte header whose
size field is 1 (declared payload 65521, which never arrives) does not make
`ReadIn` return an error: the Go code panics inside `f.SizedPayload()` —
`needed` wraps in `uint16` to 1, growth is skipped, and slicing the payload
view to 65521 bytes is out of bounds — so `ReadIn` crashes (`none`) instead
of returning an error. -/
theorem c5_counterexample :
    NewFrame.ReadIn [[0, 1, 0, 0, 0, 0, 0, 0, 0, 0, 0, 0, 0, 0, 0, 0]] = none := by
  refine ReadIn_NewFrame_panic _ ?_ ?_ <;> decide

/-- C5 amended: over every chunked stream (reads may be arbitrarily short),
`ReadIn` on a fresh frame accumulates exactly 16 header bytes, erroring when
the stream ends first (never a silent zero-frame).  For every stream whose
first 16 bytes decode to a header with `PayloadSize ≤ 65519` (size field at
least 16) it then reads exactly the declared number of payload bytes the same
way: a stream ending early causes an error return with no partial payload
exposed as valid, and otherwise it succeeds with the header decoded from
exactly the first 16 bytes, the payload equal to the next `PayloadSize` bytes,
and exactly `16 + PayloadSize` bytes consumed.  For a decoded header with
size field below 16 (`PayloadSize ≥ 65520`), however, `ReadIn` panics inside
`SizedPayload` instead of returning an error. -/
theorem c5_amended_readIn_guarded (s : Stream') :
    (s.flatten.length < 16 → NewFrame.ReadIn s = some (.error ())) ∧
    ((FrameHeader.zero.readFields (s.flatten.take 16)).PayloadSize ≤ 65519 →
      (s.flatten.length
          < 16 + (FrameHeader.zero.readFields (s.flatten.take 16)).PayloadSize →
        NewFrame.ReadIn s = some (.error ())) ∧
      (16 + (FrameHeader.zero.readFields (s.flatten.take 16)).PayloadSize
          ≤ s.flatten.length →
        ∃ g s', NewFrame.ReadIn s = some (.ok (g, s')) ∧
          g.header = FrameHeader.zero.readFields (s.flatten.take 16) ∧
          g.buffer.take 16 = s.flatten.take 16 ∧
          (g.buffer.drop 16).take g.header.PayloadSize
            = (s.flatten.drop 16).take g.header.PayloadSize ∧
          s'.flatten = s.flatten.drop (16 + g.header.PayloadSize))) ∧
    (16 ≤ s.flatten.length →
      65520 ≤ (FrameHeader.zero.readFields (s.flatten.take 16)).PayloadSize →
      NewFrame.ReadIn s = none) := by
  refine ⟨ReadIn_NewFrame_err_header s, fun hps => ⟨?_, ?_⟩, ReadIn_NewFrame_panic s⟩
  · intro hlen
    by_cases h16 : 16 ≤ s.flatten.length
    · exact ReadIn_NewFrame_err_payload s h16 hps hlen
    · exact ReadIn_NewFrame_err_header s (by omega)
  · intro hlen
    obtain ⟨g, s', h1, h2, h3, h4, h5, -, -⟩ := ReadIn_NewFrame_ok s hps hlen
    exact ⟨g, s', h1, h2, h3, h4, h5⟩

/-- Witness for the amended C5: a 17-byte frame (header size field 17, one
payload byte) delivered one byte per read is reassembled by `ReadIn`. -/
theorem c5_amended_readIn_guarded_witness :
    ∃ g s',
      NewFrame.ReadIn [[0], [17], [7], [0], [0], [0], [0], [42], [0], [0], [0], [0], [0], [0],
          [0], [0], [99]] = some (.ok (g, s')) ∧
      g.header = FrameHeader.zero.readFields
        ((List.flatten [[0], [17], [7], [0], [0], [0], [0], [42], [0], [0], [0], [0], [0], [0],
          [0], [0], [99]]).take 16) ∧
      g.buffer.take 16 = (List.flatten [[0], [17], [7], [0], [0], [0], [0], [42], [0], [0], [0],
          [0], [0], [0], [0], [0], [99]]).take 16 ∧
      (g.buffer.drop 16).take g.header.PayloadSize
        = ((List.flatten [[0], [17], [7], [0], [0], [0], [0], [42], [0], [0], [0], [0], [0],
            [0], [0], [0], [99]]).drop 16).take g.header.PayloadSize ∧
      s'.flatten = (List.flatten [[0], [17], [7], [0], [0], [0], [0], [42], [0], [0], [0], [0],
          [0], [0], [0], [0], [99]]).drop (16 + g.header.PayloadSize) :=
  ((c5_amended_readIn_guarded [[0], [17], [7], [0], [0], [0], [0], [42], [0], [0], [0], [0],
      [0], [0], [0], [0], [99]]).2.1 (by decide)).2 (by decide)

/-- C9 counterexample: with a header declaring size 1 (`PayloadSize` wraps to
65521) and all 65521 payload bytes available on the stream, `ReadIn` does not
grow the buffer and read them: the `needed` computation wraps in `uint16` to
1, growth is skipped, and the code panics slicing the payload view — no
payload byte is ever read. -/
theorem c9_counterexample :
    NewFrame.ReadIn [[0, 1, 0, 0, 0, 0, 0, 0, 0, 0, 0, 0, 0, 0, 0, 0],
        List.replicate 65521 0] = none := by
  have hf : (List.flatten [[0, 1, 0, 0, 0, 0, 0, 0, 0, 0, 0, 0, 0, 0, 0, 0],
        List.replicate 65521 (0 : Nat)])
      = [0, 1, 0, 0, 0, 0, 0, 0, 0, 0, 0, 0, 0, 0, 0, 0] ++ List.replicate 65521 0 := by
    simp only [List.flatten_cons, List.flatten_nil, List.append_nil]
  have htk : ([0, 1, 0, 0, 0, 0, 0, 0, 0, 0, 0, 0, 0, 0, 0, 0]
        ++ List.replicate 65521 (0 : Nat)).take 16
      = [0, 1, 0, 0, 0, 0, 0, 0, 0, 0, 0, 0, 0, 0, 0, 0] := by
    rw [List.take_append_eq_append_take, List.take_of_length_le (by decide),
      show (16 - ([0, 1, 0, 0, 0, 0, 0, 0, 0, 0, 0, 0, 0, 0, 0, 0] : List Nat).length) = 0
        from by decide, List.take_zero, List.append_nil]
  refine ReadIn_NewFrame_panic _ ?_ ?_
  · rw [hf, List.length_append, List.length_replicate]
    decide
  · rw [hf, htk]
    decide

/-- C9 amended: nothing validates the header invariant `size ≥ 16`: reading a
header from 16 wire bytes whose size field is below 16 is accepted, and
`PayloadSize()` wraps modulo 2^16 to `size + 65520 ≥ 65520`.  But `ReadIn`
does not then grow the buffer and read that many payload bytes: the `needed`
computation in `SizedPayload` also wraps in `uint16`, back to the size field
(below 16), so the doubling growth is skipped and slicing the payload view to
`PayloadSize()` panics on a fresh frame — `ReadIn` crashes before attempting
any payload read, whether or not the payload bytes are available. -/
theorem c9_amended_wrap_panics (hb : List Nat) (hlen : hb.length = 16)
    (h0 : hb.getD 0 0 = 0) (h1 : hb.getD 1 0 < 16) :
    FrameHeader.zero.read hb = .ok (FrameHeader.zero.readFields hb) ∧
    (FrameHeader.zero.readFields hb).PayloadSize = hb.getD 1 0 + 65520 ∧
    65520 ≤ (FrameHeader.zero.readFields hb).PayloadSize ∧
    (FrameHeaderSize + (FrameHeader.zero.readFields hb).PayloadSize) % 65536
      = hb.getD 1 0 ∧
    NewFrame.ReadIn [hb] = none ∧
    NewFrame.ReadIn [hb, List.replicate ((FrameHeader.zero.readFields hb).PayloadSize) 0]
      = none := by
  have hps : (FrameHeader.zero.readFields hb).PayloadSize = hb.getD 1 0 + 65520 := by
    simp only [FrameHeader.readFields, FrameHeader.PayloadSize, h0]
    omega
  have hf1 : ([hb] : Stream').flatten = hb := by simp
  have htk1 : hb.take 16 = hb := List.take_of_length_le (by omega)
  have hf2 : ([hb, List.replicate ((FrameHeader.zero.readFields hb).PayloadSize) 0]
        : Stream').flatten
      = hb ++ List.replicate ((FrameHeader.zero.readFields hb).PayloadSize) 0 := by
    simp
  have htk2 : (hb ++ List.replicate ((FrameHeader.zero.readFields hb).PayloadSize) 0).take 16
      = hb := by
    rw [List.take_append_eq_append_take, htk1, show 16 - hb.length = 0 from by omega,
      List.take_zero, List.append_nil]
  refine ⟨by rw [FrameHeader.read, if_neg (by omega)], hps, by omega, ?_, ?_, ?_⟩
  · simp only [FrameHeaderSize]
    omega
  · refine ReadIn_NewFrame_panic [hb] ?_ ?_
    · rw [hf1]
      omega
    · rw [hf1, htk1]
      omega
  · refine ReadIn_NewFrame_panic _ ?_ ?_
    · rw [hf2, List.length_append]
      omega
    · rw [hf2, htk2]
      omega

/-- Witness for the amended C9 at header bytes declaring size 1. -/
theorem c9_amended_wrap_panics_witness :
    FrameHeader.zero.read [0, 1, 0, 0, 0, 0, 0, 0, 0, 0, 0, 0, 0, 0, 0, 0]
      = .ok (FrameHeader.zero.readFields [0, 1, 0, 0, 0, 0, 0, 0, 0, 0, 0, 0, 0, 0, 0, 0]) ∧
    (FrameHeader.zero.readFields
        [0, 1, 0, 0, 0, 0, 0, 0, 0, 0, 0, 0, 0, 0, 0, 0]).PayloadSize
      = [0, 1, 0, 0, 0, 0, 0, 0, 0, 0, 0, 0, 0, 0, 0, (0 : Nat)].getD 1 0 + 65520 ∧
    65520 ≤ (FrameHeader.zero.readFields
        [0, 1, 0, 0, 0, 0, 0, 0, 0, 0, 0, 0, 0, 0, 0, 0]).PayloadSize ∧
    (FrameHeaderSize + (FrameHeader.zero.readFields
        [0, 1, 0, 0, 0, 0, 0, 0, 0, 0, 0, 0, 0, 0, 0, 0]).PayloadSize) % 65536
      = [0, 1, 0, 0, 0, 0, 0, 0, 0, 0, 0, 0, 0, 0, 0, (0 : Nat)].getD 1 0 ∧
    NewFrame.ReadIn [[0, 1, 0, 0, 0, 0, 0, 0, 0, 0, 0, 0, 0, 0, 0, 0]] = none ∧
    NewFrame.ReadIn [[0, 1, 0, 0, 0, 0, 0, 0, 0, 0, 0, 0, 0, 0, 0, 0],
        List.replicate ((FrameHeader.zero.readFields
          [0, 1, 0, 0, 0, 0, 0, 0, 0, 0, 0, 0, 0, 0, 0, 0]).PayloadSize) 0] = none :=
  c9_amended_wrap_panics [0, 1, 0, 0, 0, 0, 0, 0, 0, 0, 0, 0, 0, 0, 0, 0] (by decide)
    (by decide) (by decide)

/-- C1: for every frame whose header and payload were set by a successful
encode (`Frame.write` with message type `m < 256`, id `i < 2^32`, and payload
`p` of length `0 < L ≤ 65519`), `WriteOut` into an in-memory sink succeeds,
and feeding exactly those bytes to a fresh frame's `ReadIn` succeeds and
yields a frame whose decoded messageType is `m`, whose ID is `i`, and whose
sized payload bytes are exactly `p`. -/
theorem c1_encode_writeOut_readIn_roundtrip (f : Frame) (msg : Message)
    (hok : msg.encOk = true) (hm : msg.mtype < 256) (hi : msg.id < 4294967296)
    (hL0 : 0 < msg.encBytes.length) (hL : msg.encBytes.length ≤ 65519)
    (hcap : msg.encBytes.length + 16 ≤ f.buffer.length) :
    ∃ f' f'' out g s' gsp v,
      Frame.write f msg = (f', none) ∧
      f'.WriteOut = .ok (f'', out) ∧
      NewFrame.ReadIn [out] = some (.ok (g, s')) ∧
      g.header.messageType = msg.mtype ∧
      g.header.ID = msg.id ∧
      g.SizedPayload = some (gsp, v) ∧
      v = msg.encBytes := by
  have hcap' : msg.encBytes.length ≤ f.buffer.length - FrameHeaderSize := by
    simp only [FrameHeaderSize]
    omega
  have h16f : 16 ≤ f.buffer.length := by omega
  set B' : List Nat := f.buffer.take 16 ++ writeInto (f.buffer.drop 16) msg.encBytes with hB'
  set H' : FrameHeader :=
    { size := (msg.encBytes.length % 65536 + FrameHeaderSize) % 65536
      messageType := msg.mtype
      reserved1 := 0
      ID := msg.id
      reserved := f.header.reserved } with hH'
  have hw : Frame.write f msg = (⟨B', H'⟩, none) := by
    rw [Frame.write, if_pos ⟨hok, hcap'⟩]
  have hB'len : B'.length = f.buffer.length := by
    rw [hB', List.length_append, List.length_take, length_writeInto, List.length_drop]
    omega
  have h1 : (f.buffer.take 16).drop 16 = [] :=
    List.drop_eq_nil_of_le (by rw [List.length_take]; omega)
  have h2 : 16 - (f.buffer.take 16).length = 0 := by
    rw [List.length_take]
    omega
  have hdropB' : B'.drop 16 = msg.encBytes ++ (f.buffer.drop 16).drop msg.encBytes.length := by
    rw [hB', List.drop_append_eq_append_drop, h1, List.nil_append, h2, List.drop_zero,
      writeInto_of_le _ _ (by rw [List.length_drop]; omega)]
  have hsize' : H'.FrameSize = msg.encBytes.length + 16 := by
    rw [hH']
    simp only [FrameHeader.FrameSize, FrameHeaderSize]
    omega
  have hwl : H'.write.length = 16 := FrameHeader.length_write H'
  have hwo : Frame.WriteOut ⟨B', H'⟩
      = .ok (⟨H'.write ++ B'.drop 16, H'⟩, (H'.write ++ B'.drop 16).take H'.FrameSize) := by
    rw [Frame.WriteOut]
    dsimp only
    rw [if_neg (show ¬ B'.length < 16 from by omega),
      if_pos (show H'.FrameSize ≤ (H'.write ++ B'.drop 16).length from by
        rw [List.length_append, hwl, List.length_drop, hB'len, hsize']
        omega)]
  have hout : (H'.write ++ B'.drop 16).take H'.FrameSize = H'.write ++ msg.encBytes := by
    have h3 : H'.write.take (msg.encBytes.length + 16) = H'.write :=
      List.take_of_length_le (by rw [hwl]; omega)
    have h4 : msg.encBytes.length + 16 - H'.write.length = msg.encBytes.length := by
      rw [hwl]
      omega
    rw [hsize', List.take_append_eq_append_take, h3, h4, hdropB',
      List.take_append_eq_append_take, Nat.sub_self, List.take_zero, List.append_nil,
      List.take_of_length_le le_rfl]
  have hwo2 : Frame.WriteOut ⟨B', H'⟩
      = .ok (⟨H'.write ++ B'.drop 16, H'⟩, H'.write ++ msg.encBytes) := by
    rw [hwo, hout]
  have hflat : ([H'.write ++ msg.encBytes] : Stream').flatten = H'.write ++ msg.encBytes := by
    simp
  have hbslen : (H'.write ++ msg.encBytes).length = 16 + msg.encBytes.length := by
    rw [List.length_append, hwl]
  have hbstake : (H'.write ++ msg.encBytes).take 16 = H'.write := by
    rw [List.take_append_eq_append_take, List.take_of_length_le (by rw [hwl]),
      show 16 - H'.write.length = 0 from by rw [hwl], List.take_zero, List.append_nil]
  have hbsdrop : (H'.write ++ msg.encBytes).drop 16 = msg.encBytes := by
    rw [List.drop_append_eq_append_drop, List.drop_eq_nil_of_le (by rw [hwl]),
      List.nil_append, show 16 - H'.write.length = 0 from by rw [hwl], List.drop_zero]
  have hdec : FrameHeader.zero.readFields H'.write
      = { H' with reserved := FrameHeader.zero.reserved } := by
    refine FrameHeader.readFields_write FrameHeader.zero H' ?_ ?_ ?_ ?_
    · rw [hH']
      dsimp only
      omega
    · rw [hH']
      dsimp only
      exact hm
    · rw [hH']
      dsimp only
      norm_num
    · rw [hH']
      dsimp only
      exact hi
  have hdecps : ({ H' with reserved := FrameHeader.zero.reserved } : FrameHeader).PayloadSize
      = msg.encBytes.length := by
    rw [hH']
    simp only [FrameHeader.PayloadSize, FrameHeaderSize]
    omega
  obtain ⟨g, s', hok', hghead, hgtake, hgpay, hsflat, hglen, hgle⟩ :=
    ReadIn_NewFrame_ok [H'.write ++ msg.encBytes]
      (by rw [hflat, hbstake, hdec, hdecps]; exact hL)
      (by rw [hflat, hbstake, hdec, hdecps, hbslen])
  rw [hflat, hbstake, hdec] at hghead
  rw [hflat, hbsdrop] at hgpay
  have hgps : g.header.PayloadSize = msg.encBytes.length := by
    rw [hghead, hdecps]
  have hmt : g.header.messageType = msg.mtype := by
    rw [hghead, hH']
  have hid : g.header.ID = msg.id := by
    rw [hghead, hH']
  have hneedg : (FrameHeaderSize + g.header.PayloadSize) % 65536
      = 16 + g.header.PayloadSize := by
    simp only [FrameHeaderSize]
    omega
  have hnog : ¬ g.buffer.length < 16 + g.header.PayloadSize := by omega
  have hview : g.SizedPayload
      = some (g, (g.buffer.drop 16).take g.header.PayloadSize) := by
    simp only [Frame.SizedPayload, hneedg, if_neg hnog]
    rw [if_pos (by omega)]
  have hvv : (g.buffer.drop 16).take g.header.PayloadSize = msg.encBytes := by
    rw [hgpay, hgps, List.take_of_length_le le_rfl]
  exact ⟨⟨B', H'⟩, ⟨H'.write ++ B'.drop 16, H'⟩, H'.write ++ msg.encBytes, g, s', g,
    (g.buffer.drop 16).take g.header.PayloadSize, hw, hwo2, hok', hmt, hid, hview, hvv⟩

/-- Witness for C1: a fresh frame, message type 7, ID 42, payload 100 bytes of
value 13. -/
theorem c1_encode_writeOut_readIn_roundtrip_witness :
    ∃ f' f'' out g s' gsp v,
      Frame.write NewFrame ⟨42, 7, List.replicate 100 13, true⟩ = (f', none) ∧
      f'.WriteOut = .ok (f'', out) ∧
      NewFrame.ReadIn [out] = some (.ok (g, s')) ∧
      g.header.messageType = (⟨42, 7, List.replicate 100 13, true⟩ : Message).mtype ∧
      g.header.ID = (⟨42, 7, List.replicate 100 13, true⟩ : Message).id ∧
      g.SizedPayload = some (gsp, v) ∧
      v = (⟨42, 7, List.replicate 100 13, true⟩ : Message).encBytes :=
  c1_encode_writeOut_readIn_roundtrip NewFrame ⟨42, 7, List.replicate 100 13, true⟩ rfl
    (by norm_num) (by norm_num)
    (by rw [List.length_replicate]; norm_num)
    (by rw [List.length_replicate]; norm_num)
    (by rw [List.length_replicate, length_NewFrame_buffer]; norm_num)

end TChannel
